import Mathlib

/-!
# RollerCoasters: the track sampler of `TrainView::drawTrack`

A shallow embedding of `src/TrainView.cpp`, lines 47-71 (constants and basis
matrices) and 474-671 (`TrainView::drawTrack`).

Numbers.  The C++ code computes in `float`; the embedding computes in an
arbitrary linearly ordered field `K` (instantiate `K := ℚ` to evaluate), so
every rounding step is idealised away.  The two `<cmath>` functions the code
calls, `sqrt` and `acos`, are parameters of the embedding (`Libm`).
Division follows the field convention `x / 0 = 0`; where a statement is about a
vanishing denominator, numerator and denominator are stated separately.
-/

set_option autoImplicit false

namespace RollerCoasters

/-! ## Constants (TrainView.cpp, lines 47-56) -/

/-- Source line 48: `constexpr auto LINEAR_TYPE = 1;` -/
def LINEAR_TYPE : Int := 1

/-- Source line 49: `constexpr auto CARDINAL = 2;` -/
def CARDINAL : Int := 2

/-- Source line 50: `constexpr auto B_SPLINE = 3;` -/
def B_SPLINE : Int := 3

/-- Source line 53: `constexpr auto DIVIDE_LINE = 1000;` -/
def DIVIDE_LINE : Nat := 1000

/-- Source line 56: `constexpr auto M_PI = 3.14159265358979323846;` -/
def M_PI {K : Type} [LinearOrderedField K] : K := 314159265358979323846 / 100000000000000000000

/-- The two `<cmath>` functions called by `drawTrack`, taken as parameters. -/
structure Libm (K : Type) where
  /-- The library function `sqrt`. -/
  sqrt : K → K
  /-- The library function `acos` (radians). -/
  acos : K → K

/-! ## Points (`Pnt3f`) -/

/-- Modelled from the spec: `Pnt3f` of `Utilities/Pnt3f.H`, which is not among the
sources; a point or vector with three coordinates `x`, `y`, `z`. -/
@[ext]
structure Pnt3f (K : Type) where
  x : K
  y : K
  z : K
deriving DecidableEq

namespace Pnt3f

variable {K : Type} [LinearOrderedField K]

/-- Modelled from the spec: `Pnt3f + Pnt3f` of `Utilities/Pnt3f.H`, coordinatewise sum. -/
def add (a b : Pnt3f K) : Pnt3f K := ⟨a.x + b.x, a.y + b.y, a.z + b.z⟩

/-- Modelled from the spec: `Pnt3f - Pnt3f` of `Utilities/Pnt3f.H`, coordinatewise
difference (the spec's `current.position − previous.position`). -/
def sub (a b : Pnt3f K) : Pnt3f K := ⟨a.x - b.x, a.y - b.y, a.z - b.z⟩

/-- Modelled from the spec: `Pnt3f * float` and `float * Pnt3f` of
`Utilities/Pnt3f.H`, multiplication of every coordinate by a scalar. -/
def scale (a : Pnt3f K) (s : K) : Pnt3f K := ⟨a.x * s, a.y * s, a.z * s⟩

/-- Modelled from the spec: `Pnt3f * Pnt3f` of `Utilities/Pnt3f.H`, the cross
product (the spec's `(position delta) × orientationVector`). -/
def cross (a b : Pnt3f K) : Pnt3f K :=
  ⟨a.y * b.z - a.z * b.y, a.z * b.x - a.x * b.z, a.x * b.y - a.y * b.x⟩

/-- Sum of the squared coordinates, `x*x + y*y + z*z`. -/
def normSq (a : Pnt3f K) : K := a.x * a.x + a.y * a.y + a.z * a.z

/-- Modelled from the spec: `Pnt3f::normalize` of `Utilities/Pnt3f.H`; division of
every coordinate by the vector's length, with no zero-length guard (spec section 9:
"the reference behavior performs no zero-length guard before normalizing"). -/
def normalize (m : Libm K) (a : Pnt3f K) : Pnt3f K :=
  ⟨a.x / m.sqrt (normSq a), a.y / m.sqrt (normSq a), a.z / m.sqrt (normSq a)⟩

/-- Inner product, used to state perpendicularity. -/
def dot (a b : Pnt3f K) : K := a.x * b.x + a.y * b.y + a.z * b.z

/-- The zero vector. -/
def zero : Pnt3f K := ⟨0, 0, 0⟩

end Pnt3f

/-! ## `glm::vec4` and `glm::mat4` -/

/-- A `glm::vec4`; `c0 .. c3` are the components `v[0] .. v[3]`. -/
@[ext]
structure Vec4 (K : Type) where
  c0 : K
  c1 : K
  c2 : K
  c3 : K
deriving DecidableEq

/-- A `glm::mat4`.  glm matrices are column-major: the four inner initializer lists
of `glm::mat4 m = { {..}, {..}, {..}, {..} }` are the four columns `m[0] .. m[3]`. -/
structure Mat4 (K : Type) where
  col0 : Vec4 K
  col1 : Vec4 K
  col2 : Vec4 K
  col3 : Vec4 K

section Basis

variable {K : Type} [LinearOrderedField K]

/-- The glm product `mat4 * vec4`: the linear combination
`m[0]*v[0] + m[1]*v[1] + m[2]*v[2] + m[3]*v[3]` of the columns of `m`. -/
def Mat4.mulVec (m : Mat4 K) (v : Vec4 K) : Vec4 K :=
  ⟨m.col0.c0 * v.c0 + m.col1.c0 * v.c1 + m.col2.c0 * v.c2 + m.col3.c0 * v.c3,
   m.col0.c1 * v.c0 + m.col1.c1 * v.c1 + m.col2.c1 * v.c2 + m.col3.c1 * v.c3,
   m.col0.c2 * v.c0 + m.col1.c2 * v.c1 + m.col2.c2 * v.c2 + m.col3.c2 * v.c3,
   m.col0.c3 * v.c0 + m.col1.c3 * v.c1 + m.col2.c3 * v.c2 + m.col3.c3 * v.c3⟩

/-- Source lines 59-64: `glm::mat4 cardinalBasisMatrix`. -/
def cardinalBasisMatrix : Mat4 K :=
  { col0 := ⟨-(1 / 2), 3 / 2, -(3 / 2), 1 / 2⟩
    col1 := ⟨1, -(5 / 2), 2, -(1 / 2)⟩
    col2 := ⟨-(1 / 2), 0, 1 / 2, 0⟩
    col3 := ⟨0, 1, 0, 0⟩ }

/-- Source lines 66-71: `glm::mat4 bSplineBasisMatrix`, with the constants of the
source (`0.1667 = 1667/10000`, `0.6667 = 6667/10000`). -/
def bSplineBasisMatrix : Mat4 K :=
  { col0 := ⟨-(1667 / 10000), 1 / 2, -(1 / 2), 1667 / 10000⟩
    col1 := ⟨1 / 2, -1, 1 / 2, 0⟩
    col2 := ⟨-(1 / 2), 0, 1 / 2, 0⟩
    col3 := ⟨1667 / 10000, 6667 / 10000, 1667 / 10000, 0⟩ }

/-- Source line 516: the parameter vector `T(pow(t, 3), pow(t, 2), t, 1)`. -/
def paramVector (t : K) : Vec4 K := ⟨t ^ 3, t ^ 2, t, 1⟩

/-- Source lines 538-541 and 554-557: `T` overwritten with
`(3 * pow(t, 2), 2 * t, 1, 0)`. -/
def derivVector (t : K) : Vec4 K := ⟨3 * t ^ 2, 2 * t, 1, 0⟩

/-- Source lines 534, 536, 545, 550, 552: `a1 * C[0] + a2 * C[1] + a3 * C[2] + a4 * C[3]`. -/
def combine (a1 a2 a3 a4 : Pnt3f K) (C : Vec4 K) : Pnt3f K :=
  (((a1.scale C.c0).add (a2.scale C.c1)).add (a3.scale C.c2)).add (a4.scale C.c3)

/-- Source lines 500, 525, 527: `(1 - t) * a1 + t * a2`. -/
def linearBlend (t : K) (a1 a2 : Pnt3f K) : Pnt3f K :=
  (a1.scale (1 - t)).add (a2.scale t)

end Basis

/-! ## The track and its cyclic windows (source lines 476-487) -/

/-- A control point of `m_pTrack->points`: its position `pos` and its orientation
`orient`. -/
structure ControlPoint (K : Type) where
  pos : Pnt3f K
  orient : Pnt3f K

/-- The eight values read at the top of the outer loop body: four positions and
four orientations. -/
structure Window (K : Type) where
  p1 : Pnt3f K
  p2 : Pnt3f K
  p3 : Pnt3f K
  p4 : Pnt3f K
  o1 : Pnt3f K
  o2 : Pnt3f K
  o3 : Pnt3f K
  o4 : Pnt3f K

/-- Source lines 478-481: the four subscripts `i`, `(i + 1) % size`, `(i + 2) % size`,
`(i + 3) % size` used for segment `i` of a track of `size` points.  (`size_t` sums
cannot wrap: `i + 3` is far below `SIZE_MAX` for any vector of control points.) -/
def windowIndices (size i : Nat) : Nat × Nat × Nat × Nat :=
  (i, (i + 1) % size, (i + 2) % size, (i + 3) % size)

/-- Source lines 478-487: the window of segment `i`.  A subscript outside the vector
(undefined behaviour in C++) yields `none`. -/
def getWindow {K : Type} (points : List (ControlPoint K)) (i : Nat) : Option (Window K) :=
  match points[(windowIndices points.length i).1]?,
        points[(windowIndices points.length i).2.1]?,
        points[(windowIndices points.length i).2.2.1]?,
        points[(windowIndices points.length i).2.2.2]? with
  | some c1, some c2, some c3, some c4 =>
      some ⟨c1.pos, c2.pos, c3.pos, c4.pos, c1.orient, c2.orient, c3.orient, c4.orient⟩
  | _, _, _, _ => none

/-! ## The inner loop (source lines 489-670) -/

/-- The variables that live across iterations of the inner loop: `t`, `qt`,
`orient_t`. -/
structure LoopState (K : Type) where
  t : K
  qt : Pnt3f K
  orient_t : Pnt3f K

/-- What one iteration of the inner loop computes and draws.  `tangent0` is the
variable `tangent` as the `switch` leaves it, `tangent` is its value after
`tangent.normalize()` (line 568); `orient_t` and `cross_t` are the values after
lines 562 and 566; `tie` tells whether the block of line 601 is entered. -/
structure Station (K : Type) where
  qt0 : Pnt3f K
  qt : Pnt3f K
  orient_t : Pnt3f K
  tangent0 : Pnt3f K
  tangent : Pnt3f K
  cross_t : Pnt3f K
  angle_y : K
  angle : K
  tie : Bool

/-- A drawing command issued by `drawTrack`: the four vertices of one `GL_LINES`
block (lines 570-578), or the placement of one tie (lines 604-606: translation,
rotation about Y, rotation about X). -/
inductive GLCmd (K : Type) where
  | lines (a0 a1 b0 b1 : Pnt3f K)
  | tie (translate : Pnt3f K) (angle_y angle : K)

section Loop

variable {K : Type} [LinearOrderedField K]

/-- Source line 495: `float increment = 1.0f / DIVIDE_LINE;`, as the exact quotient.
The rounding of this constant and of the sums `t += increment` is not modelled: no
statement about the claims relies on the value of `t` after more than one step. -/
def increment : K := 1 / (DIVIDE_LINE : K)

/-- Source lines 497-508: the value of `qt` before the inner loop (`t` is `0` there).
`uninit` is the value of a default-constructed `Pnt3f`, which `qt` keeps when the
`switch` matches no case. -/
def initialQt (kind : Int) (uninit : Pnt3f K) (w : Window K) : Pnt3f K :=
  if kind = LINEAR_TYPE then linearBlend 0 w.p1 w.p2
  else if kind = CARDINAL then w.p2
  else if kind = B_SPLINE then
    ((w.p1.scale (1 / 6)).add (w.p2.scale (4 / 6))).add (w.p3.scale (1 / 6))
  else uninit

/-- Source lines 489-508: the loop variables on entry to the inner loop. -/
def initialState (kind : Int) (uninit : Pnt3f K) (w : Window K) : LoopState K :=
  { t := 0, qt := initialQt kind uninit w, orient_t := uninit }

/-- Source lines 564-566: `cross_t = (qt - qt0) * orient_t`, normalized, times `2.5f`. -/
def crossOffset (m : Libm K) (qt0 qt orient_t : Pnt3f K) : Pnt3f K :=
  (Pnt3f.normalize m ((qt.sub qt0).cross orient_t)).scale (5 / 2)

/-- Numerator of the quotient of lines 586 and 596: `A.x * B.x + A.y * B.y + A.z * B.z`. -/
def cosNum (A B : Pnt3f K) : K := A.x * B.x + A.y * B.y + A.z * B.z

/-- Denominator of the quotient of lines 587 and 597:
`abs(sqrt(A.x² + A.y² + A.z²)) * abs(sqrt(B.x² + B.y² + B.z²))`. -/
def cosDen (m : Libm K) (A B : Pnt3f K) : K :=
  abs (m.sqrt (A.x ^ 2 + A.y ^ 2 + A.z ^ 2)) * abs (m.sqrt (B.x ^ 2 + B.y ^ 2 + B.z ^ 2))

/-- Source lines 586-589 and 596-599: `acos(num / den) * 180.0 / M_PI`, the angle in
degrees between `A` and `B`. -/
def angleDeg (m : Libm K) (A B : Pnt3f K) : K :=
  m.acos (cosNum A B / cosDen m A B) * 180 / M_PI

/-- Source line 591: the condition under which `angle_y` is negated. -/
def negateCond (AC : Pnt3f K) : Bool :=
  (decide (AC.x < 0) && decide (AC.z > 0)) || (decide (AC.x > 0) && decide (AC.z > 0))

/-- Source lines 583-592: `angle_y` for the position delta `AC`, against
`AB = (1, 0, 0)`. -/
def angleY (m : Libm K) (AC : Pnt3f K) : K :=
  if negateCond AC then -(angleDeg m AC ⟨1, 0, 0⟩) else angleDeg m AC ⟨1, 0, 0⟩

/-- Source lines 513-560: the `switch` of the loop body.  `T` is built from `t`
before `t += increment` (lines 516, 520); the Linear case and the derivative vector
of the Cardinal case read `t` after it.  Returns the new `qt`, the new `orient_t`
and `tangent`.  The B-spline case overwrites `T` (lines 554-557) and assigns no
tangent; an unmatched `kind` assigns nothing. -/
def switchBody (kind : Int) (uninit : Pnt3f K) (w : Window K) (s : LoopState K) :
    Pnt3f K × Pnt3f K × Pnt3f K :=
  let T := paramVector s.t
  let t := s.t + increment
  if kind = LINEAR_TYPE then
    (linearBlend t w.p1 w.p2, linearBlend t w.o1 w.o2,
      ⟨w.p2.x - w.p1.x, w.p2.y - w.p1.y, w.p2.z - w.p1.z⟩)
  else if kind = CARDINAL then
    let C := cardinalBasisMatrix.mulVec T
    let C1 := cardinalBasisMatrix.mulVec (derivVector t)
    (combine w.p1 w.p2 w.p3 w.p4 C, combine w.o1 w.o2 w.o3 w.o4 C,
      combine w.p1 w.p2 w.p3 w.p4 C1)
  else if kind = B_SPLINE then
    let C := bSplineBasisMatrix.mulVec T
    (combine w.p1 w.p2 w.p3 w.p4 C, combine w.o1 w.o2 w.o3 w.o4 C, uninit)
  else (s.qt, s.orient_t, uninit)

/-- Source lines 511-670: one iteration of the inner loop, for loop counter `j`. -/
def stepBody (m : Libm K) (kind : Int) (uninit : Pnt3f K) (w : Window K) (j : Nat)
    (s : LoopState K) : LoopState K × Station K :=
  let qt0 := s.qt
  let r := switchBody kind uninit w s
  let qt := r.1
  let orient_t := Pnt3f.normalize m r.2.1
  let AC : Pnt3f K := ⟨qt.x - qt0.x, qt.y - qt0.y, qt.z - qt0.z⟩
  ({ t := s.t + increment, qt := qt, orient_t := orient_t },
   { qt0 := qt0
     qt := qt
     orient_t := orient_t
     tangent0 := r.2.2
     tangent := Pnt3f.normalize m r.2.2
     cross_t := crossOffset m qt0 qt orient_t
     angle_y := angleY m AC
     angle := angleDeg m orient_t ⟨0, 1, 0⟩
     tie := decide (j % 100 = 0) })

/-- Source line 510: the iterations `j, j + 1, ..., j + n - 1` of the inner loop,
started in state `s`. -/
def innerLoop (m : Libm K) (kind : Int) (uninit : Pnt3f K) (w : Window K) :
    Nat → Nat → LoopState K → List (Station K)
  | 0, _, _ => []
  | n + 1, j, s =>
      (stepBody m kind uninit w j s).2 ::
        innerLoop m kind uninit w n (j + 1) (stepBody m kind uninit w j s).1

/-- Source lines 489-670: the body of the outer loop for one window, i.e.
`for (size_t j = 0; j < DIVIDE_LINE; j++)` from the initial state. -/
def drawSegment (m : Libm K) (kind : Int) (uninit : Pnt3f K) (w : Window K) :
    List (Station K) :=
  innerLoop m kind uninit w DIVIDE_LINE 0 (initialState kind uninit w)

/-- Source line 476: the iterations `i, i + 1, ..., i + n - 1` of the outer loop. -/
def outerLoop (m : Libm K) (kind : Int) (uninit : Pnt3f K) (points : List (ControlPoint K)) :
    Nat → Nat → Option (List (List (Station K)))
  | 0, _ => some []
  | n + 1, i =>
      match getWindow points i with
      | none => none
      | some w =>
          match outerLoop m kind uninit points n (i + 1) with
          | none => none
          | some rest => some (drawSegment m kind uninit w :: rest)

/-- Source lines 474-671: `TrainView::drawTrack`, as the list of segments, each the
list of its stations; `kind` is `tw->splineBrowser->value()`. -/
def drawTrack (m : Libm K) (kind : Int) (uninit : Pnt3f K) (points : List (ControlPoint K)) :
    Option (List (List (Station K))) :=
  outerLoop m kind uninit points points.length 0

/-- Source lines 570-578 and 601-606: the drawing commands of one station. -/
def Station.emit (s : Station K) : List (GLCmd K) :=
  GLCmd.lines (s.qt0.add s.cross_t) (s.qt.add s.cross_t)
      (s.qt0.sub s.cross_t) (s.qt.sub s.cross_t) ::
    (if s.tie then [GLCmd.tie s.qt s.angle_y s.angle] else [])

/-- Whether a drawing command is a tie. -/
def GLCmd.isTie : GLCmd K → Bool
  | GLCmd.tie _ _ _ => true
  | GLCmd.lines _ _ _ _ => false

/-- The drawing commands of a list of stations, in order. -/
def emitAll (l : List (Station K)) : List (GLCmd K) := l.flatMap Station.emit

/-- Number of ties drawn for a list of stations. -/
def tieCount (l : List (Station K)) : Nat := ((emitAll l).filter GLCmd.isTie).length

/-- Number of `GL_LINES` blocks drawn for a list of stations. -/
def lineCount (l : List (Station K)) : Nat :=
  ((emitAll l).filter (fun c => !c.isTie)).length

/-- The position each kind evaluates at parameter `t` on window `w`: the expression
assigned to `qt` in lines 525, 534 and 550. -/
def positionAt (kind : Int) (w : Window K) (t : K) : Option (Pnt3f K) :=
  if kind = LINEAR_TYPE then some (linearBlend t w.p1 w.p2)
  else if kind = CARDINAL then
    some (combine w.p1 w.p2 w.p3 w.p4 (cardinalBasisMatrix.mulVec (paramVector t)))
  else if kind = B_SPLINE then
    some (combine w.p1 w.p2 w.p3 w.p4 (bSplineBasisMatrix.mulVec (paramVector t)))
  else none

/-- The loop state after `k` iterations started in `s`. -/
def stateAfter (m : Libm K) (kind : Int) (uninit : Pnt3f K) (w : Window K) :
    Nat → LoopState K → LoopState K
  | 0, s => s
  | k + 1, s => stateAfter m kind uninit w k (stepBody m kind uninit w 0 s).1

end Loop

/-! ## A computable `<cmath>` over `ℚ`, for evaluating the embedding -/

/-- A stand-in for `<cmath>` over `ℚ`, used only to evaluate the embedding at concrete
inputs: `sqrt` is exact at `0` and `1` (one Newton step from `1` elsewhere) and `acos`
interpolates linearly between its values at `-1`, `0` and `1` (`M_PI`, `M_PI / 2`, `0`). -/
def ratLibm : Libm ℚ :=
  { sqrt := fun q => if q = 0 then 0 else if q = 1 then 1 else (q + 1) / 2
    acos := fun q => M_PI / 2 * (1 - q) }

/-- A closed track of four control points on a square in the plane `y = 0`, each with
orientation `(0, 1, 0)`. -/
def squareTrack : List (ControlPoint ℚ) :=
  [⟨⟨0, 0, 0⟩, ⟨0, 1, 0⟩⟩, ⟨⟨10, 0, 0⟩, ⟨0, 1, 0⟩⟩, ⟨⟨10, 0, 10⟩, ⟨0, 1, 0⟩⟩,
   ⟨⟨0, 0, 10⟩, ⟨0, 1, 0⟩⟩]

/-- A track of only three control points. -/
def triangleTrack : List (ControlPoint ℚ) :=
  [⟨⟨0, 0, 0⟩, ⟨0, 1, 0⟩⟩, ⟨⟨10, 0, 0⟩, ⟨0, 1, 0⟩⟩, ⟨⟨10, 0, 10⟩, ⟨0, 1, 0⟩⟩]

/-- The window of segment `0` of `squareTrack`. -/
def squareWindow : Window ℚ :=
  ⟨⟨0, 0, 0⟩, ⟨10, 0, 0⟩, ⟨10, 0, 10⟩, ⟨0, 0, 10⟩, ⟨0, 1, 0⟩, ⟨0, 1, 0⟩, ⟨0, 1, 0⟩, ⟨0, 1, 0⟩⟩

/-- The window whose four positions all equal `P` and whose four orientations all
equal `O`. -/
def constWindow {K : Type} (P O : Pnt3f K) : Window K := ⟨P, P, P, P, O, O, O, O⟩

/-- Sum of the four components of a weight vector. -/
def Vec4.sum {K : Type} [LinearOrderedField K] (v : Vec4 K) : K := v.c0 + v.c1 + v.c2 + v.c3

/-! ## Helper lemmas: windows -/

section WindowLemmas

variable {K : Type}

theorem windowIndices_lt (size i : Nat) (hi : i < size) :
    (windowIndices size i).1 < size ∧ (windowIndices size i).2.1 < size ∧
      (windowIndices size i).2.2.1 < size ∧ (windowIndices size i).2.2.2 < size := by
  have hpos : 0 < size := Nat.lt_of_le_of_lt (Nat.zero_le i) hi
  exact ⟨hi, Nat.mod_lt _ hpos, Nat.mod_lt _ hpos, Nat.mod_lt _ hpos⟩

theorem getWindow_eq_some (points : List (ControlPoint K)) (i : Nat) (hi : i < points.length) :
    ∃ c1 c2 c3 c4 : ControlPoint K,
      points[i]? = some c1 ∧ points[(i + 1) % points.length]? = some c2 ∧
      points[(i + 2) % points.length]? = some c3 ∧
      points[(i + 3) % points.length]? = some c4 ∧
      getWindow points i =
        some ⟨c1.pos, c2.pos, c3.pos, c4.pos, c1.orient, c2.orient, c3.orient, c4.orient⟩ := by
  obtain ⟨h1, h2, h3, h4⟩ := windowIndices_lt points.length i hi
  simp only [windowIndices] at h1 h2 h3 h4
  refine ⟨points[i], points[(i + 1) % points.length], points[(i + 2) % points.length],
    points[(i + 3) % points.length], ?_, ?_, ?_, ?_, ?_⟩
  · exact List.getElem?_eq_getElem h1
  · exact List.getElem?_eq_getElem h2
  · exact List.getElem?_eq_getElem h3
  · exact List.getElem?_eq_getElem h4
  · simp only [getWindow, windowIndices, List.getElem?_eq_getElem h1,
      List.getElem?_eq_getElem h2, List.getElem?_eq_getElem h3, List.getElem?_eq_getElem h4]

end WindowLemmas

/-! ## Helper lemmas: the loops -/

section LoopLemmas

variable {K : Type} [LinearOrderedField K]

theorem stepBody_state_indep (m : Libm K) (kind : Int) (uninit : Pnt3f K) (w : Window K)
    (j j2 : Nat) (s : LoopState K) :
    (stepBody m kind uninit w j s).1 = (stepBody m kind uninit w j2 s).1 := rfl

theorem innerLoop_length (m : Libm K) (kind : Int) (uninit : Pnt3f K) (w : Window K) :
    ∀ (n j : Nat) (s : LoopState K), (innerLoop m kind uninit w n j s).length = n := by
  intro n
  induction n with
  | zero => intro j s; rfl
  | succ n ih => intro j s; simp [innerLoop, ih]

theorem innerLoop_getElem (m : Libm K) (kind : Int) (uninit : Pnt3f K) (w : Window K) :
    ∀ (n k j : Nat) (s : LoopState K), k < n →
      (innerLoop m kind uninit w n j s)[k]? =
        some (stepBody m kind uninit w (j + k) (stateAfter m kind uninit w k s)).2 := by
  intro n
  induction n with
  | zero => intro k j s hk; exact absurd hk (Nat.not_lt_zero k)
  | succ n ih =>
    intro k j s hk
    cases k with
    | zero => simp [innerLoop, stateAfter]
    | succ k =>
      have hk2 : k < n := Nat.lt_of_succ_lt_succ hk
      simp only [innerLoop, List.getElem?_cons_succ, stateAfter]
      rw [ih k (j + 1) _ hk2, stepBody_state_indep m kind uninit w j 0 s]
      congr 3
      omega

theorem stateAfter_t (m : Libm K) (kind : Int) (uninit : Pnt3f K) (w : Window K) :
    ∀ (k : Nat) (s : LoopState K),
      (stateAfter m kind uninit w k s).t = s.t + (k : K) * increment := by
  intro k
  induction k with
  | zero => intro s; simp [stateAfter]
  | succ k ih =>
    intro s
    simp only [stateAfter]
    rw [ih]
    simp only [stepBody]
    push_cast
    ring

theorem drawSegment_length (m : Libm K) (kind : Int) (uninit : Pnt3f K) (w : Window K) :
    (drawSegment m kind uninit w).length = DIVIDE_LINE :=
  innerLoop_length m kind uninit w DIVIDE_LINE 0 _

theorem drawSegment_getElem (m : Libm K) (kind : Int) (uninit : Pnt3f K) (w : Window K)
    (k : Nat) (hk : k < DIVIDE_LINE) :
    (drawSegment m kind uninit w)[k]? =
      some (stepBody m kind uninit w k
        (stateAfter m kind uninit w k (initialState kind uninit w))).2 := by
  have h := innerLoop_getElem m kind uninit w DIVIDE_LINE k 0 (initialState kind uninit w) hk
  simpa [drawSegment] using h

theorem stateAfter_initial_t (m : Libm K) (kind : Int) (uninit : Pnt3f K) (w : Window K)
    (k : Nat) :
    (stateAfter m kind uninit w k (initialState kind uninit w)).t = (k : K) * increment := by
  rw [stateAfter_t]
  simp [initialState]

theorem outerLoop_spec (m : Libm K) (kind : Int) (uninit : Pnt3f K)
    (points : List (ControlPoint K)) :
    ∀ (n i : Nat), i + n ≤ points.length →
      ∃ segs : List (List (Station K)),
        outerLoop m kind uninit points n i = some segs ∧ segs.length = n ∧
        ∀ k, k < n → ∃ w, getWindow points (i + k) = some w ∧
          segs[k]? = some (drawSegment m kind uninit w) := by
  intro n
  induction n with
  | zero =>
    intro i _
    exact ⟨[], rfl, rfl, fun k hk => absurd hk (Nat.not_lt_zero k)⟩
  | succ n ih =>
    intro i hi
    have hlt : i < points.length := by omega
    obtain ⟨c1, c2, c3, c4, -, -, -, -, hw⟩ := getWindow_eq_some points i hlt
    obtain ⟨rest, hrest, hlen, hall⟩ := ih (i + 1) (by omega)
    generalize hwd : (⟨c1.pos, c2.pos, c3.pos, c4.pos, c1.orient, c2.orient, c3.orient,
      c4.orient⟩ : Window K) = w0 at hw
    refine ⟨drawSegment m kind uninit w0 :: rest, ?_, ?_, ?_⟩
    · simp only [outerLoop, hw, hrest]
    · simp [hlen]
    · intro k hk
      cases k with
      | zero => exact ⟨w0, hw, by simp⟩
      | succ k =>
        obtain ⟨w2, hw2, hs2⟩ := hall k (Nat.lt_of_succ_lt_succ hk)
        refine ⟨w2, ?_, ?_⟩
        · rw [← hw2]; congr 1; omega
        · simpa using hs2

theorem drawTrack_spec (m : Libm K) (kind : Int) (uninit : Pnt3f K)
    (points : List (ControlPoint K)) :
    ∃ segs : List (List (Station K)),
      drawTrack m kind uninit points = some segs ∧ segs.length = points.length ∧
      ∀ i, i < points.length → ∃ w, getWindow points i = some w ∧
        segs[i]? = some (drawSegment m kind uninit w) := by
  obtain ⟨segs, h1, h2, h3⟩ := outerLoop_spec m kind uninit points points.length 0 (by omega)
  refine ⟨segs, h1, h2, ?_⟩
  intro i hi
  obtain ⟨w, hw, hs⟩ := h3 i hi
  exact ⟨w, by simpa using hw, hs⟩

end LoopLemmas

/-! ## Helper lemmas: positions, ties, counts -/

section StationLemmas

variable {K : Type} [LinearOrderedField K]

theorem switchBody_linear (uninit : Pnt3f K) (w : Window K) (s : LoopState K) :
    switchBody LINEAR_TYPE uninit w s =
      (linearBlend (s.t + increment) w.p1 w.p2, linearBlend (s.t + increment) w.o1 w.o2,
        ⟨w.p2.x - w.p1.x, w.p2.y - w.p1.y, w.p2.z - w.p1.z⟩) := by
  simp [switchBody]

theorem switchBody_cardinal (uninit : Pnt3f K) (w : Window K) (s : LoopState K) :
    switchBody CARDINAL uninit w s =
      (combine w.p1 w.p2 w.p3 w.p4 (cardinalBasisMatrix.mulVec (paramVector s.t)),
        combine w.o1 w.o2 w.o3 w.o4 (cardinalBasisMatrix.mulVec (paramVector s.t)),
        combine w.p1 w.p2 w.p3 w.p4
          (cardinalBasisMatrix.mulVec (derivVector (s.t + increment)))) := by
  simp [switchBody, CARDINAL, LINEAR_TYPE]

theorem switchBody_bspline (uninit : Pnt3f K) (w : Window K) (s : LoopState K) :
    switchBody B_SPLINE uninit w s =
      (combine w.p1 w.p2 w.p3 w.p4 (bSplineBasisMatrix.mulVec (paramVector s.t)),
        combine w.o1 w.o2 w.o3 w.o4 (bSplineBasisMatrix.mulVec (paramVector s.t)),
        uninit) := by
  simp [switchBody, B_SPLINE, CARDINAL, LINEAR_TYPE]

/-- The `qt` assigned by the `switch` is `positionAt`, at the incremented parameter
in Linear mode and at the parameter before the increment in the other two modes. -/
theorem switchBody_position (kind : Int) (uninit : Pnt3f K) (w : Window K) (s : LoopState K) :
    (kind = LINEAR_TYPE →
      positionAt kind w (s.t + increment) = some (switchBody kind uninit w s).1) ∧
    (kind = CARDINAL ∨ kind = B_SPLINE →
      positionAt kind w s.t = some (switchBody kind uninit w s).1) := by
  constructor
  · intro h
    subst h
    simp [positionAt, switchBody]
  · intro h
    rcases h with h | h
    · subst h
      simp [positionAt, switchBody, CARDINAL, LINEAR_TYPE]
    · subst h
      simp [positionAt, switchBody, B_SPLINE, CARDINAL, LINEAR_TYPE]

theorem innerLoop_map_tie (m : Libm K) (kind : Int) (uninit : Pnt3f K) (w : Window K) :
    ∀ (n j : Nat) (s : LoopState K),
      (innerLoop m kind uninit w n j s).map Station.tie =
        (List.range' j n).map (fun j => decide (j % 100 = 0)) := by
  intro n
  induction n with
  | zero => intro j s; rfl
  | succ n ih =>
    intro j s
    simp only [innerLoop, List.map_cons, List.range'_succ, ih]
    rfl

theorem tieCount_eq (l : List (Station K)) :
    tieCount l = (l.map Station.tie).count true := by
  induction l with
  | nil => rfl
  | cons st l ih =>
    have hcons : tieCount (st :: l) = (if st.tie then 1 else 0) + tieCount l := by
      unfold tieCount emitAll
      cases hst : st.tie <;>
        simp [Station.emit, hst, GLCmd.isTie, List.filter_cons, Nat.add_comm]
    rw [hcons, ih]
    cases hst : st.tie <;> simp [hst, Nat.add_comm]

theorem lineCount_eq (l : List (Station K)) : lineCount l = l.length := by
  induction l with
  | nil => rfl
  | cons st l ih =>
    have hcons : lineCount (st :: l) = 1 + lineCount l := by
      unfold lineCount emitAll
      cases hst : st.tie <;>
        simp [Station.emit, hst, GLCmd.isTie, List.filter_cons, Nat.add_comm]
    rw [hcons, ih]
    simp [Nat.add_comm]

set_option maxRecDepth 100000 in
theorem tie_flags_count :
    ((List.range' 0 DIVIDE_LINE).map (fun j => decide (j % 100 = 0))).count true = 10 := by
  decide

set_option maxRecDepth 100000 in
theorem tie_indices :
    (List.range DIVIDE_LINE).filter (fun j => decide (j % 100 = 0)) =
      [0, 100, 200, 300, 400, 500, 600, 700, 800, 900] := by
  decide

theorem drawSegment_tieCount (m : Libm K) (kind : Int) (uninit : Pnt3f K) (w : Window K) :
    tieCount (drawSegment m kind uninit w) = 10 := by
  rw [tieCount_eq, drawSegment, innerLoop_map_tie]
  exact tie_flags_count

theorem drawSegment_lineCount (m : Libm K) (kind : Int) (uninit : Pnt3f K) (w : Window K) :
    lineCount (drawSegment m kind uninit w) = DIVIDE_LINE := by
  rw [lineCount_eq, drawSegment_length]

theorem sum_map_const {α : Type} (f : α → Nat) (c : Nat) :
    ∀ l : List α, (∀ a ∈ l, f a = c) → (l.map f).sum = l.length * c := by
  intro l
  induction l with
  | nil => intro _; simp
  | cons a l ih =>
    intro h
    have ha : f a = c := h a (List.mem_cons_self a l)
    have hl : ∀ b ∈ l, f b = c := fun b hb => h b (List.mem_cons_of_mem a hb)
    simp only [List.map_cons, List.sum_cons, List.length_cons, ih hl, ha]
    ring

/-- Every segment of a pass is `drawSegment` of some window. -/
theorem drawTrack_segments (m : Libm K) (kind : Int) (uninit : Pnt3f K)
    (points : List (ControlPoint K)) :
    ∃ segs : List (List (Station K)),
      drawTrack m kind uninit points = some segs ∧ segs.length = points.length ∧
      ∀ seg ∈ segs, ∃ w, seg = drawSegment m kind uninit w := by
  obtain ⟨segs, h1, h2, h3⟩ := drawTrack_spec m kind uninit points
  refine ⟨segs, h1, h2, ?_⟩
  intro seg hseg
  obtain ⟨i, hi, hget⟩ := List.getElem_of_mem hseg
  obtain ⟨w, -, hw⟩ := h3 i (h2 ▸ hi)
  refine ⟨w, ?_⟩
  rw [List.getElem?_eq_getElem hi] at hw
  rw [← hget]
  exact Option.some.inj hw

end StationLemmas

/-! ## Helper lemmas: the cross offset -/

section FrameLemmas

variable {K : Type} [LinearOrderedField K]

theorem normSq_pos_of_ne_zero (v : Pnt3f K) (hv : v ≠ Pnt3f.zero) : 0 < v.normSq := by
  have h0 : 0 ≤ v.normSq := by
    unfold Pnt3f.normSq
    nlinarith [mul_self_nonneg v.x, mul_self_nonneg v.y, mul_self_nonneg v.z]
  rcases lt_or_eq_of_le h0 with h | h
  · exact h
  · exfalso
    apply hv
    unfold Pnt3f.normSq at h
    have hx : v.x = 0 := by
      nlinarith [mul_self_nonneg v.x, mul_self_nonneg v.y, mul_self_nonneg v.z]
    have hy : v.y = 0 := by
      nlinarith [mul_self_nonneg v.x, mul_self_nonneg v.y, mul_self_nonneg v.z]
    have hz : v.z = 0 := by
      nlinarith [mul_self_nonneg v.x, mul_self_nonneg v.y, mul_self_nonneg v.z]
    ext
    · simpa [Pnt3f.zero] using hx
    · simpa [Pnt3f.zero] using hy
    · simpa [Pnt3f.zero] using hz

theorem cross_dot_left (a b : Pnt3f K) : (a.cross b).dot a = 0 := by
  simp only [Pnt3f.cross, Pnt3f.dot]
  ring

theorem cross_dot_right (a b : Pnt3f K) : (a.cross b).dot b = 0 := by
  simp only [Pnt3f.cross, Pnt3f.dot]
  ring

theorem normalize_scale_normSq (m : Libm K) (v : Pnt3f K) (c : K) (hv : v ≠ Pnt3f.zero)
    (hs : m.sqrt v.normSq * m.sqrt v.normSq = v.normSq) :
    ((Pnt3f.normalize m v).scale c).normSq = c * c := by
  have hpos := normSq_pos_of_ne_zero v hv
  have hl : m.sqrt v.normSq ≠ 0 := by
    intro h0
    rw [h0, mul_zero] at hs
    exact absurd hs.symm (ne_of_gt hpos)
  have key : ((Pnt3f.normalize m v).scale c).normSq =
      c * c * (v.normSq / (m.sqrt v.normSq * m.sqrt v.normSq)) := by
    simp only [Pnt3f.normalize, Pnt3f.scale, Pnt3f.normSq]
    field_simp
    ring
  rw [key, hs, div_self (ne_of_gt hpos), mul_one]

theorem normalize_scale_dot (m : Libm K) (v u : Pnt3f K) (c : K) (h : v.dot u = 0) :
    ((Pnt3f.normalize m v).scale c).dot u = 0 := by
  have key : ((Pnt3f.normalize m v).scale c).dot u = v.dot u * c / m.sqrt v.normSq := by
    simp only [Pnt3f.normalize, Pnt3f.scale, Pnt3f.dot]
    ring
  rw [key, h, zero_mul, zero_div]

theorem rail_gap_normSq (p c : Pnt3f K) : ((p.add c).sub (p.sub c)).normSq = 4 * c.normSq := by
  simp only [Pnt3f.add, Pnt3f.sub, Pnt3f.normSq]
  ring

theorem eq_of_sq_eq (r a : K) (hr : 0 ≤ r) (ha : 0 < a) (h : r * r = a * a) : r = a := by
  have h2 : (r - a) * (r + a) = 0 := by ring_nf; linear_combination h
  rcases mul_eq_zero.mp h2 with h3 | h3
  · linarith
  · linarith

end FrameLemmas

/-! ## Helper lemmas: stations of a segment -/

section SegmentLemmas

variable {K : Type} [LinearOrderedField K]

theorem increment_eq : (increment : K) = 1 / 1000 := by
  simp [increment, DIVIDE_LINE]

/-- The station of loop counter `k`, in terms of the state before the iteration. -/
theorem drawSegment_station (m : Libm K) (kind : Int) (uninit : Pnt3f K) (w : Window K)
    (k : Nat) (hk : k < DIVIDE_LINE) :
    ∃ s : LoopState K, s.t = (k : K) / 1000 ∧
      s = stateAfter m kind uninit w k (initialState kind uninit w) ∧
      (drawSegment m kind uninit w)[k]? = some (stepBody m kind uninit w k s).2 := by
  refine ⟨_, ?_, rfl, drawSegment_getElem m kind uninit w k hk⟩
  rw [stateAfter_initial_t, increment_eq]
  ring

theorem drawSegment_first (m : Libm K) (kind : Int) (uninit : Pnt3f K) (w : Window K) :
    (drawSegment m kind uninit w)[0]? =
      some (stepBody m kind uninit w 0 (initialState kind uninit w)).2 :=
  drawSegment_getElem m kind uninit w 0 (by decide)

/-- Cardinal mode: position and tangent of the station of loop counter `k`. -/
theorem cardinal_station (m : Libm K) (uninit : Pnt3f K) (w : Window K) (k : Nat)
    (hk : k < DIVIDE_LINE) :
    ∃ st : Station K, (drawSegment m CARDINAL uninit w)[k]? = some st ∧
      st.qt = combine w.p1 w.p2 w.p3 w.p4
        (cardinalBasisMatrix.mulVec (paramVector ((k : K) / 1000))) ∧
      st.tangent0 = combine w.p1 w.p2 w.p3 w.p4
        (cardinalBasisMatrix.mulVec (derivVector (((k : K) + 1) / 1000))) := by
  obtain ⟨s, ht, -, hs⟩ := drawSegment_station m CARDINAL uninit w k hk
  refine ⟨_, hs, ?_, ?_⟩
  · simp only [stepBody, switchBody_cardinal, ht]
  · simp only [stepBody, switchBody_cardinal, ht, increment_eq]
    congr 3
    ring

/-- B-spline mode: position and tangent of the station of loop counter `k`. -/
theorem bspline_station (m : Libm K) (uninit : Pnt3f K) (w : Window K) (k : Nat)
    (hk : k < DIVIDE_LINE) :
    ∃ st : Station K, (drawSegment m B_SPLINE uninit w)[k]? = some st ∧
      st.qt = combine w.p1 w.p2 w.p3 w.p4
        (bSplineBasisMatrix.mulVec (paramVector ((k : K) / 1000))) ∧
      st.tangent0 = uninit := by
  obtain ⟨s, ht, -, hs⟩ := drawSegment_station m B_SPLINE uninit w k hk
  refine ⟨_, hs, ?_, ?_⟩
  · simp only [stepBody, switchBody_bspline, ht]
  · simp only [stepBody, switchBody_bspline]

/-- Linear mode: the tangent of the station of loop counter `k`. -/
theorem linear_station (m : Libm K) (uninit : Pnt3f K) (w : Window K) (k : Nat)
    (hk : k < DIVIDE_LINE) :
    ∃ st : Station K, (drawSegment m LINEAR_TYPE uninit w)[k]? = some st ∧
      st.tangent0 = ⟨w.p2.x - w.p1.x, w.p2.y - w.p1.y, w.p2.z - w.p1.z⟩ := by
  obtain ⟨s, -, -, hs⟩ := drawSegment_station m LINEAR_TYPE uninit w k hk
  refine ⟨_, hs, ?_⟩
  simp only [stepBody, switchBody_linear]

/-- Counts of a whole pass, for every kind and every number of control points. -/
theorem drawTrack_counts (m : Libm K) (kind : Int) (uninit : Pnt3f K)
    (points : List (ControlPoint K)) :
    ∃ segs : List (List (Station K)),
      drawTrack m kind uninit points = some segs ∧ segs.length = points.length ∧
      (∀ seg ∈ segs, seg.length = DIVIDE_LINE ∧ lineCount seg = DIVIDE_LINE ∧
        tieCount seg = 10) ∧
      (segs.map lineCount).sum = points.length * DIVIDE_LINE ∧
      (segs.map tieCount).sum = points.length * 10 := by
  obtain ⟨segs, h1, h2, h3⟩ := drawTrack_segments m kind uninit points
  have hall : ∀ seg ∈ segs, seg.length = DIVIDE_LINE ∧ lineCount seg = DIVIDE_LINE ∧
      tieCount seg = 10 := by
    intro seg hseg
    obtain ⟨w, rfl⟩ := h3 seg hseg
    exact ⟨drawSegment_length m kind uninit w, drawSegment_lineCount m kind uninit w,
      drawSegment_tieCount m kind uninit w⟩
  refine ⟨segs, h1, h2, hall, ?_, ?_⟩
  · rw [sum_map_const lineCount DIVIDE_LINE segs (fun seg hseg => (hall seg hseg).2.1), h2]
  · rw [sum_map_const tieCount 10 segs (fun seg hseg => (hall seg hseg).2.2), h2]

/-- B-spline mode: `qt0`, `qt` and their difference at the station of loop counter `0`. -/
theorem bspline_first_delta (m : Libm K) (uninit : Pnt3f K) (w : Window K) :
    ∃ st : Station K, (drawSegment m B_SPLINE uninit w)[0]? = some st ∧
      st.qt0 = ((w.p1.scale (1 / 6)).add (w.p2.scale (4 / 6))).add (w.p3.scale (1 / 6)) ∧
      st.qt = ((w.p1.scale (1667 / 10000)).add (w.p2.scale (6667 / 10000))).add
        (w.p3.scale (1667 / 10000)) ∧
      (⟨st.qt.x - st.qt0.x, st.qt.y - st.qt0.y, st.qt.z - st.qt0.z⟩ : Pnt3f K) =
        ((w.p1.add w.p2).add w.p3).scale (1 / 30000) ∧
      st.angle_y = angleY m (((w.p1.add w.p2).add w.p3).scale (1 / 30000)) := by
  have hq0 : (stepBody m B_SPLINE uninit w 0 (initialState B_SPLINE uninit w)).2.qt0 =
      ((w.p1.scale (1 / 6)).add (w.p2.scale (4 / 6))).add (w.p3.scale (1 / 6)) := by
    simp [stepBody, initialState, initialQt, B_SPLINE, CARDINAL, LINEAR_TYPE]
  have hq : (stepBody m B_SPLINE uninit w 0 (initialState B_SPLINE uninit w)).2.qt =
      ((w.p1.scale (1667 / 10000)).add (w.p2.scale (6667 / 10000))).add
        (w.p3.scale (1667 / 10000)) := by
    simp only [stepBody, switchBody_bspline, initialState]
    ext <;>
      norm_num [combine, Mat4.mulVec, bSplineBasisMatrix, paramVector, Pnt3f.scale, Pnt3f.add]
  have hAC : (⟨(stepBody m B_SPLINE uninit w 0 (initialState B_SPLINE uninit w)).2.qt.x -
        (stepBody m B_SPLINE uninit w 0 (initialState B_SPLINE uninit w)).2.qt0.x,
      (stepBody m B_SPLINE uninit w 0 (initialState B_SPLINE uninit w)).2.qt.y -
        (stepBody m B_SPLINE uninit w 0 (initialState B_SPLINE uninit w)).2.qt0.y,
      (stepBody m B_SPLINE uninit w 0 (initialState B_SPLINE uninit w)).2.qt.z -
        (stepBody m B_SPLINE uninit w 0 (initialState B_SPLINE uninit w)).2.qt0.z⟩ : Pnt3f K) =
      ((w.p1.add w.p2).add w.p3).scale (1 / 30000) := by
    rw [hq, hq0]
    simp only [Pnt3f.scale, Pnt3f.add]
    ext <;> simp only <;> ring
  have ha : (stepBody m B_SPLINE uninit w 0 (initialState B_SPLINE uninit w)).2.angle_y =
      angleY m
        ⟨(stepBody m B_SPLINE uninit w 0 (initialState B_SPLINE uninit w)).2.qt.x -
            (stepBody m B_SPLINE uninit w 0 (initialState B_SPLINE uninit w)).2.qt0.x,
          (stepBody m B_SPLINE uninit w 0 (initialState B_SPLINE uninit w)).2.qt.y -
            (stepBody m B_SPLINE uninit w 0 (initialState B_SPLINE uninit w)).2.qt0.y,
          (stepBody m B_SPLINE uninit w 0 (initialState B_SPLINE uninit w)).2.qt.z -
            (stepBody m B_SPLINE uninit w 0 (initialState B_SPLINE uninit w)).2.qt0.z⟩ := rfl
  exact ⟨_, drawSegment_first m B_SPLINE uninit w, hq0, hq, hAC, by rw [ha, hAC]⟩

theorem scale_eq_zero_iff (v : Pnt3f K) (c : K) (hc : c ≠ 0) :
    v.scale c = Pnt3f.zero ↔ v = Pnt3f.zero := by
  constructor
  · intro h
    have hx : v.x * c = 0 := congrArg Pnt3f.x h
    have hy : v.y * c = 0 := congrArg Pnt3f.y h
    have hz : v.z * c = 0 := congrArg Pnt3f.z h
    ext
    · exact (mul_eq_zero.mp hx).resolve_right hc
    · exact (mul_eq_zero.mp hy).resolve_right hc
    · exact (mul_eq_zero.mp hz).resolve_right hc
  · intro h
    rw [h]
    simp [Pnt3f.scale, Pnt3f.zero]

end SegmentLemmas

/-! ## The claims -/

section Claims

variable {K : Type} [LinearOrderedField K]

/-- C1: for every track and every segment index `i` below its length `N`, the four
subscripts `i`, `(i+1) mod N`, `(i+2) mod N`, `(i+3) mod N` are below `N`, the window
lookup of `drawTrack` succeeds and reads exactly the control points at these
subscripts, the whole pass performs no out-of-bounds lookup, and for `N ≥ 4` the
window of index `N-1` is `N-1, 0, 1, 2`. -/
theorem cyclic_window_in_bounds (m : Libm K) (kind : Int) (uninit : Pnt3f K)
    (points : List (ControlPoint K)) (i : Nat) (hi : i < points.length) :
    ((windowIndices points.length i).1 < points.length ∧
      (windowIndices points.length i).2.1 < points.length ∧
      (windowIndices points.length i).2.2.1 < points.length ∧
      (windowIndices points.length i).2.2.2 < points.length) ∧
    windowIndices points.length i =
      (i, (i + 1) % points.length, (i + 2) % points.length, (i + 3) % points.length) ∧
    (∃ c1 c2 c3 c4 : ControlPoint K,
      points[i]? = some c1 ∧ points[(i + 1) % points.length]? = some c2 ∧
      points[(i + 2) % points.length]? = some c3 ∧
      points[(i + 3) % points.length]? = some c4 ∧
      getWindow points i =
        some ⟨c1.pos, c2.pos, c3.pos, c4.pos, c1.orient, c2.orient, c3.orient, c4.orient⟩) ∧
    (drawTrack m kind uninit points).isSome = true ∧
    (4 ≤ points.length →
      windowIndices points.length (points.length - 1) = (points.length - 1, 0, 1, 2)) := by
  refine ⟨windowIndices_lt _ _ hi, rfl, getWindow_eq_some points i hi, ?_, ?_⟩
  · obtain ⟨segs, h, -, -⟩ := drawTrack_spec m kind uninit points
    simp [h]
  · intro hN
    have h1 : points.length - 1 + 1 = points.length := by omega
    have h2 : points.length - 1 + 2 = points.length + 1 := by omega
    have h3 : points.length - 1 + 3 = points.length + 2 := by omega
    simp only [windowIndices, h1, h2, h3, Nat.mod_self, Nat.add_mod_left]
    rw [Nat.mod_eq_of_lt (by omega : 1 < points.length),
      Nat.mod_eq_of_lt (by omega : 2 < points.length)]

/-- Witness of C1: segment `3` of the four-point `squareTrack` reads the control points
`3, 0, 1, 2`. -/
theorem cyclic_window_in_bounds_witness :
    3 < squareTrack.length ∧ windowIndices squareTrack.length 3 = (3, 0, 1, 2) ∧
      (getWindow squareTrack 3).isSome = true :=
  ⟨by decide,
    (cyclic_window_in_bounds ratLibm CARDINAL Pnt3f.zero squareTrack 3 (by decide)).2.2.2.2
      (by decide),
    by
      obtain ⟨-, -, ⟨c1, c2, c3, c4, -, -, -, -, h⟩, -, -⟩ :=
        cyclic_window_in_bounds ratLibm CARDINAL Pnt3f.zero squareTrack 3 (by decide)
      simp [h]⟩

/-- C2: for every track of `N ≥ 4` control points, every segment index `i < N` and each
of the three spline kinds, the position the kind's weights give at `t = 1` on the window
of segment `i` equals the position they give at `t = 0` on the window of segment
`(i+1) mod N`. -/
theorem position_continuity (kind : Int) (points : List (ControlPoint K)) (i : Nat)
    (hN : 4 ≤ points.length) (hi : i < points.length)
    (hk : kind = LINEAR_TYPE ∨ kind = CARDINAL ∨ kind = B_SPLINE) :
    ∃ (w w2 : Window K) (q : Pnt3f K),
      getWindow points i = some w ∧
      getWindow points ((i + 1) % points.length) = some w2 ∧
      positionAt kind w 1 = some q ∧ positionAt kind w2 0 = some q := by
  have hpos : 0 < points.length := by omega
  have hi2 : (i + 1) % points.length < points.length := Nat.mod_lt _ hpos
  obtain ⟨c1, c2, c3, c4, -, e2, e3, e4, hw⟩ := getWindow_eq_some points i hi
  obtain ⟨d1, d2, d3, d4, f1, f2, f3, -, hw2⟩ :=
    getWindow_eq_some points ((i + 1) % points.length) hi2
  rw [Nat.mod_add_mod] at f2 f3
  have g1 : d1 = c2 := Option.some.inj (f1.symm.trans e2)
  have g2 : d2 = c3 := Option.some.inj (f2.symm.trans e3)
  have g3 : d3 = c4 := Option.some.inj (f3.symm.trans e4)
  subst g1 g2 g3
  rcases hk with h | h | h
  · subst h
    refine ⟨_, _, _, hw, hw2, rfl, ?_⟩
    simp [positionAt, linearBlend, Pnt3f.scale, Pnt3f.add]
  · subst h
    refine ⟨_, _, _, hw, hw2, by simp [positionAt, CARDINAL, LINEAR_TYPE]; rfl, ?_⟩
    simp only [positionAt, CARDINAL, LINEAR_TYPE]
    norm_num [combine, Mat4.mulVec, cardinalBasisMatrix, paramVector, Pnt3f.scale, Pnt3f.add]
  · subst h
    refine ⟨_, _, _, hw, hw2, by simp [positionAt, B_SPLINE, CARDINAL, LINEAR_TYPE]; rfl, ?_⟩
    simp only [positionAt, B_SPLINE, CARDINAL, LINEAR_TYPE]
    norm_num [combine, Mat4.mulVec, bSplineBasisMatrix, paramVector, Pnt3f.scale, Pnt3f.add]

/-- Witness of C2: B-spline continuity between segments `3` and `0` of `squareTrack`. -/
theorem position_continuity_witness :
    4 ≤ squareTrack.length ∧ 3 < squareTrack.length ∧
      ∃ (w w2 : Window ℚ) (q : Pnt3f ℚ),
        getWindow squareTrack 3 = some w ∧
        getWindow squareTrack ((3 + 1) % squareTrack.length) = some w2 ∧
        positionAt B_SPLINE w 1 = some q ∧ positionAt B_SPLINE w2 0 = some q :=
  ⟨by decide, by decide,
    position_continuity B_SPLINE squareTrack 3 (by decide) (by decide) (Or.inr (Or.inr rfl))⟩

/-- C3, counterexample: in B-spline mode the weights evaluated at `t = 0` applied to a
window of four copies of `P = (1, 0, 0)` give `(1.0001, 0, 0)`, not `P`; the weights sum
to `1.0001`. -/
theorem bspline_weights_at_zero_counterexample :
    positionAt B_SPLINE (constWindow (⟨1, 0, 0⟩ : Pnt3f ℚ) ⟨0, 1, 0⟩) 0 =
        some ⟨10001 / 10000, 0, 0⟩ ∧
      positionAt B_SPLINE (constWindow (⟨1, 0, 0⟩ : Pnt3f ℚ) ⟨0, 1, 0⟩) 0 ≠
        some ⟨1, 0, 0⟩ ∧
      (bSplineBasisMatrix.mulVec (paramVector (0 : ℚ))).sum ≠ 1 := by
  refine ⟨?_, ?_, ?_⟩
  · simp only [positionAt, B_SPLINE, CARDINAL, LINEAR_TYPE]
    norm_num [constWindow, combine, Mat4.mulVec, bSplineBasisMatrix, paramVector, Pnt3f.scale,
      Pnt3f.add]
  · simp only [positionAt, B_SPLINE, CARDINAL, LINEAR_TYPE]
    norm_num [constWindow, combine, Mat4.mulVec, bSplineBasisMatrix, paramVector, Pnt3f.scale,
      Pnt3f.add]
  · norm_num [Vec4.sum, Mat4.mulVec, bSplineBasisMatrix, paramVector]

/-- C3, amended: at `t = 0` the Linear weights `{1 - t, t}` and the Cardinal weights
(the basis matrix times `[0, 0, 0, 1]`) sum to exactly `1` and return `P` on a window of
identical points `P`; the B-spline weights are the rounded constants
`0.1667, 0.6667, 0.1667, 0`, which sum to `1.0001`, and return `P` scaled by `1.0001`. -/
theorem weights_at_zero (P O : Pnt3f K) :
    (positionAt LINEAR_TYPE (constWindow P O) 0 = some P ∧ ((1 : K) - 0) + 0 = 1) ∧
    (positionAt CARDINAL (constWindow P O) 0 = some P ∧
      cardinalBasisMatrix.mulVec (paramVector (0 : K)) = ⟨0, 1, 0, 0⟩ ∧
      (cardinalBasisMatrix.mulVec (paramVector (0 : K))).sum = 1) ∧
    (positionAt B_SPLINE (constWindow P O) 0 = some (P.scale (10001 / 10000)) ∧
      bSplineBasisMatrix.mulVec (paramVector (0 : K)) =
        ⟨1667 / 10000, 6667 / 10000, 1667 / 10000, 0⟩ ∧
      (bSplineBasisMatrix.mulVec (paramVector (0 : K))).sum = 10001 / 10000) := by
  refine ⟨⟨?_, by norm_num⟩, ⟨?_, ?_, ?_⟩, ⟨?_, ?_, ?_⟩⟩
  · simp [positionAt, constWindow, linearBlend, Pnt3f.scale, Pnt3f.add]
  · simp only [positionAt, CARDINAL, LINEAR_TYPE]
    norm_num [constWindow, combine, Mat4.mulVec, cardinalBasisMatrix, paramVector, Pnt3f.scale,
      Pnt3f.add]
  · norm_num [Mat4.mulVec, cardinalBasisMatrix, paramVector]
  · norm_num [Vec4.sum, Mat4.mulVec, cardinalBasisMatrix, paramVector]
  · simp only [positionAt, B_SPLINE, CARDINAL, LINEAR_TYPE]
    norm_num [constWindow, combine, Mat4.mulVec, bSplineBasisMatrix, paramVector, Pnt3f.scale,
      Pnt3f.add]
    refine ⟨?_, ?_, ?_⟩ <;> ring
  · norm_num [Mat4.mulVec, bSplineBasisMatrix, paramVector]
  · norm_num [Vec4.sum, Mat4.mulVec, bSplineBasisMatrix, paramVector]

/-- C4: for every track of `N` control points and every spline kind, the stations of a
segment that draw a tie are exactly those with loop counter `j`, `j mod 100 = 0`, that
is `0, 100, ..., 900`; every segment draws exactly 10 ties and the whole pass draws
`10 * N`. -/
theorem tie_cadence (m : Libm K) (kind : Int) (uninit : Pnt3f K)
    (points : List (ControlPoint K)) :
    (∀ w : Window K,
      (drawSegment m kind uninit w).map Station.tie =
          (List.range DIVIDE_LINE).map (fun j => decide (j % 100 = 0)) ∧
        tieCount (drawSegment m kind uninit w) = 10) ∧
    (List.range DIVIDE_LINE).filter (fun j => decide (j % 100 = 0)) =
      [0, 100, 200, 300, 400, 500, 600, 700, 800, 900] ∧
    ∃ segs : List (List (Station K)),
      drawTrack m kind uninit points = some segs ∧ segs.length = points.length ∧
      (∀ seg ∈ segs, tieCount seg = 10) ∧
      (segs.map tieCount).sum = 10 * points.length := by
  refine ⟨fun w => ⟨?_, drawSegment_tieCount m kind uninit w⟩, ?_, ?_⟩
  · rw [drawSegment, innerLoop_map_tie, List.range_eq_range']
  · exact tie_indices
  · obtain ⟨segs, h1, h2, h3⟩ := drawTrack_segments m kind uninit points
    have hall : ∀ seg ∈ segs, tieCount seg = 10 := by
      intro seg hseg
      obtain ⟨w, rfl⟩ := h3 seg hseg
      exact drawSegment_tieCount m kind uninit w
    refine ⟨segs, h1, h2, hall, ?_⟩
    rw [sum_map_const tieCount 10 segs hall, h2, Nat.mul_comm]

/-- C5: for every position delta `AC`, the tie yaw `angle_y` is the negation of the
unsigned angle `acos(cos_y) * 180 / M_PI` when `(AC.x > 0 and AC.z > 0)` or
`(AC.x < 0 and AC.z > 0)`, and the unsigned angle itself otherwise; `AC = (1,0,1)` is
negated, `AC = (1,0,-1)` is not, and `AC = (0,0,1)` gives the un-negated angle of
`acos(0)`, which is `+90` degrees when `acos(0)` is `M_PI / 2`.  The `angle_y` of every
station is this function of `qt - qt0`. -/
theorem angleY_sign_convention (m : Libm K) (AC : Pnt3f K) :
    angleY m AC =
      (if (0 < AC.x ∧ 0 < AC.z) ∨ (AC.x < 0 ∧ 0 < AC.z) then -(angleDeg m AC ⟨1, 0, 0⟩)
        else angleDeg m AC ⟨1, 0, 0⟩) ∧
    angleY m ⟨1, 0, 1⟩ = -(angleDeg m ⟨1, 0, 1⟩ ⟨1, 0, 0⟩) ∧
    angleY m ⟨1, 0, -1⟩ = angleDeg m ⟨1, 0, -1⟩ ⟨1, 0, 0⟩ ∧
    angleY m ⟨0, 0, 1⟩ = m.acos 0 * 180 / M_PI ∧
    (m.acos 0 = M_PI / 2 → angleY m ⟨0, 0, 1⟩ = 90) ∧
    (∀ (kind : Int) (uninit : Pnt3f K) (w : Window K) (j : Nat) (s : LoopState K),
      (stepBody m kind uninit w j s).2.angle_y =
        angleY m
          ⟨(stepBody m kind uninit w j s).2.qt.x - (stepBody m kind uninit w j s).2.qt0.x,
           (stepBody m kind uninit w j s).2.qt.y - (stepBody m kind uninit w j s).2.qt0.y,
           (stepBody m kind uninit w j s).2.qt.z - (stepBody m kind uninit w j s).2.qt0.z⟩) := by
  have h001 : angleY m ⟨0, 0, 1⟩ = m.acos 0 * 180 / M_PI := by
    simp [angleY, negateCond, angleDeg, cosNum]
  refine ⟨?_, ?_, ?_, h001, ?_, fun _ _ _ _ _ => rfl⟩
  · unfold angleY negateCond
    by_cases hz : 0 < AC.z
    · by_cases hx : 0 < AC.x
      · simp [hz, hx]
      · by_cases hx2 : AC.x < 0
        · simp [hz, hx2]
        · simp [hz, hx, hx2]
    · simp [hz]
  · simp [angleY, negateCond]
  · simp [angleY, negateCond]
  · intro hacos
    rw [h001, hacos]
    have hpi : (M_PI : K) ≠ 0 := by
      unfold M_PI
      norm_num
    field_simp
    ring

/-- Witness of C5: with the stand-in `acos`, exact at `0`, the delta `(0,0,1)` gives
`+90` degrees. -/
theorem angleY_sign_convention_witness :
    ratLibm.acos 0 = M_PI / 2 ∧ angleY ratLibm ⟨0, 0, 1⟩ = 90 :=
  ⟨by simp [ratLibm],
    (angleY_sign_convention ratLibm ⟨0, 0, 1⟩).2.2.2.2.1 (by simp [ratLibm])⟩

/-- C6: for consecutive positions `prev`, `cur` and an orientation `o` whose cross
product `(cur - prev) × o` is non-zero (and at whose squared length `sqrt` is exact),
`cross_t` has squared length `2.5²`, so its length is exactly `2.5`; it is perpendicular
to `cur - prev` and to `o`; and the rail points `position + cross_t` and
`position - cross_t` are exactly `5` apart, at both ends of the rail segment. -/
theorem crossOffset_frame (m : Libm K) (prev cur o : Pnt3f K)
    (hne : (cur.sub prev).cross o ≠ Pnt3f.zero)
    (hsqrt : m.sqrt ((cur.sub prev).cross o).normSq * m.sqrt ((cur.sub prev).cross o).normSq =
      ((cur.sub prev).cross o).normSq) :
    (crossOffset m prev cur o).normSq = (5 / 2) * (5 / 2) ∧
    (∀ r : K, 0 ≤ r → r * r = (crossOffset m prev cur o).normSq → r = 5 / 2) ∧
    (crossOffset m prev cur o).dot (cur.sub prev) = 0 ∧
    (crossOffset m prev cur o).dot o = 0 ∧
    (∀ r : K, 0 ≤ r →
      r * r = ((cur.add (crossOffset m prev cur o)).sub
        (cur.sub (crossOffset m prev cur o))).normSq → r = 5) ∧
    (∀ r : K, 0 ≤ r →
      r * r = ((prev.add (crossOffset m prev cur o)).sub
        (prev.sub (crossOffset m prev cur o))).normSq → r = 5) := by
  have hlen : (crossOffset m prev cur o).normSq = (5 / 2) * (5 / 2) :=
    normalize_scale_normSq m _ (5 / 2) hne hsqrt
  have hgap : ∀ p : Pnt3f K, ∀ r : K, 0 ≤ r →
      r * r = ((p.add (crossOffset m prev cur o)).sub
        (p.sub (crossOffset m prev cur o))).normSq → r = 5 := by
    intro p r hr h
    rw [rail_gap_normSq, hlen] at h
    exact eq_of_sq_eq r 5 hr (by norm_num) (by rw [h]; norm_num)
  refine ⟨hlen, ?_, ?_, ?_, hgap cur, hgap prev⟩
  · intro r hr h
    rw [hlen] at h
    exact eq_of_sq_eq r (5 / 2) hr (by norm_num) h
  · exact normalize_scale_dot m _ _ _ (cross_dot_left _ _)
  · exact normalize_scale_dot m _ _ _ (cross_dot_right _ _)

/-- Witness of C6: a step from the origin to `(1,0,0)` with orientation `(0,1,0)`. -/
theorem crossOffset_frame_witness :
    (Pnt3f.sub (⟨1, 0, 0⟩ : Pnt3f ℚ) ⟨0, 0, 0⟩).cross ⟨0, 1, 0⟩ ≠ Pnt3f.zero ∧
      (crossOffset ratLibm ⟨0, 0, 0⟩ ⟨1, 0, 0⟩ ⟨0, 1, 0⟩).normSq = (5 / 2) * (5 / 2) ∧
      (crossOffset ratLibm ⟨0, 0, 0⟩ ⟨1, 0, 0⟩ ⟨0, 1, 0⟩).dot
        (Pnt3f.sub ⟨1, 0, 0⟩ ⟨0, 0, 0⟩) = 0 :=
  ⟨by simp [Pnt3f.zero, Pnt3f.sub, Pnt3f.cross],
    (crossOffset_frame ratLibm ⟨0, 0, 0⟩ ⟨1, 0, 0⟩ ⟨0, 1, 0⟩
      (by simp [Pnt3f.zero, Pnt3f.sub, Pnt3f.cross])
      (by simp [ratLibm, Pnt3f.normSq, Pnt3f.sub, Pnt3f.cross])).1,
    (crossOffset_frame ratLibm ⟨0, 0, 0⟩ ⟨1, 0, 0⟩ ⟨0, 1, 0⟩
      (by simp [Pnt3f.zero, Pnt3f.sub, Pnt3f.cross])
      (by simp [ratLibm, Pnt3f.normSq, Pnt3f.sub, Pnt3f.cross])).2.2.1⟩

/-- C7: in Linear mode, for every window and every parameter `t` the loop samples at
(the value of `t` after `t += increment`, whatever the state before the step was), the
sampled position is `(1 - t) * p1 + t * p2`, coordinate by coordinate; it is the same
for every window with these `p1`, `p2`, whatever the other control points are; and for
`p1 = (0,0,0)`, `p2 = (10,0,0)` the position sampled at `t = 0.5` is exactly `(5,0,0)`.
Every station of a Linear segment is such a step, taken from the loop's state before
it.  Nothing here depends on the value `t` has accumulated after several steps. -/
theorem linear_basis_exact (m : Libm K) (uninit : Pnt3f K) (w : Window K) (j : Nat)
    (s : LoopState K) (t : K) (ht : s.t + increment = t) :
    (stepBody m LINEAR_TYPE uninit w j s).1.t = t ∧
    (stepBody m LINEAR_TYPE uninit w j s).2.qt =
      ⟨(1 - t) * w.p1.x + t * w.p2.x, (1 - t) * w.p1.y + t * w.p2.y,
        (1 - t) * w.p1.z + t * w.p2.z⟩ ∧
    positionAt LINEAR_TYPE w t = some (stepBody m LINEAR_TYPE uninit w j s).2.qt ∧
    (∀ (w2 : Window K) (s2 : LoopState K), w2.p1 = w.p1 → w2.p2 = w.p2 → s2.t = s.t →
      (stepBody m LINEAR_TYPE uninit w2 j s2).2.qt =
        (stepBody m LINEAR_TYPE uninit w j s).2.qt) ∧
    (t = 1 / 2 → w.p1 = ⟨0, 0, 0⟩ → w.p2 = ⟨10, 0, 0⟩ →
      (stepBody m LINEAR_TYPE uninit w j s).2.qt = ⟨5, 0, 0⟩) ∧
    (∀ p3 p4 o1 o2 o3 o4 : Pnt3f K,
      positionAt LINEAR_TYPE ⟨⟨0, 0, 0⟩, ⟨10, 0, 0⟩, p3, p4, o1, o2, o3, o4⟩ (1 / 2) =
        some ⟨5, 0, 0⟩) ∧
    (∀ k, k < DIVIDE_LINE →
      (drawSegment m LINEAR_TYPE uninit w)[k]? =
        some (stepBody m LINEAR_TYPE uninit w k
          (stateAfter m LINEAR_TYPE uninit w k (initialState LINEAR_TYPE uninit w))).2) := by
  have hq : ∀ (w0 : Window K) (s0 : LoopState K),
      (stepBody m LINEAR_TYPE uninit w0 j s0).2.qt =
        linearBlend (s0.t + increment) w0.p1 w0.p2 := by
    intro w0 s0
    simp [stepBody, switchBody_linear]
  have hform : (stepBody m LINEAR_TYPE uninit w j s).2.qt =
      ⟨(1 - t) * w.p1.x + t * w.p2.x, (1 - t) * w.p1.y + t * w.p2.y,
        (1 - t) * w.p1.z + t * w.p2.z⟩ := by
    rw [hq, ht]
    simp only [linearBlend, Pnt3f.scale, Pnt3f.add]
    ext <;> simp only <;> ring
  refine ⟨ht, hform, ?_, ?_, ?_, ?_, ?_⟩
  · rw [hq, ht]
    simp [positionAt]
  · intro w2 s2 h1 h2 h3
    rw [hq, hq, h1, h2, h3]
  · intro h1 h2 h3
    rw [hform, h1, h2, h3]
    norm_num
  · intro p3 p4 o1 o2 o3 o4
    simp only [positionAt, linearBlend, Pnt3f.scale, Pnt3f.add, if_true]
    norm_num
  · intro k hk
    exact drawSegment_getElem m LINEAR_TYPE uninit w k hk

/-- Witness of C7: on the first window of `squareTrack` (`p1 = (0,0,0)`,
`p2 = (10,0,0)`), the step taken from a loop state whose parameter is one increment
below `0.5` samples at `t = 0.5` and gives the position `(5,0,0)`. -/
theorem linear_basis_exact_witness :
    ((1 / 2 - increment : ℚ) + increment = 1 / 2) ∧
      (stepBody ratLibm LINEAR_TYPE Pnt3f.zero squareWindow 0
        ⟨1 / 2 - increment, Pnt3f.zero, Pnt3f.zero⟩).1.t = 1 / 2 ∧
      (stepBody ratLibm LINEAR_TYPE Pnt3f.zero squareWindow 0
        ⟨1 / 2 - increment, Pnt3f.zero, Pnt3f.zero⟩).2.qt = ⟨5, 0, 0⟩ :=
  ⟨sub_add_cancel _ _,
    (linear_basis_exact ratLibm Pnt3f.zero squareWindow 0
      ⟨1 / 2 - increment, Pnt3f.zero, Pnt3f.zero⟩ (1 / 2) (sub_add_cancel _ _)).1,
    (linear_basis_exact ratLibm Pnt3f.zero squareWindow 0
      ⟨1 / 2 - increment, Pnt3f.zero, Pnt3f.zero⟩ (1 / 2) (sub_add_cancel _ _)).2.2.2.2.1
      rfl rfl rfl⟩

/-- C8, counterexample: in Cardinal and in B-spline mode the three-point
`triangleTrack` is not rejected: the pass returns three segments and draws 3000 rail
blocks and 30 ties. -/
theorem insufficient_points_counterexample :
    triangleTrack.length < 4 ∧
      (∃ segs : List (List (Station ℚ)),
        drawTrack ratLibm CARDINAL Pnt3f.zero triangleTrack = some segs ∧ segs.length = 3 ∧
        (segs.map lineCount).sum = 3000 ∧ (segs.map tieCount).sum = 30) ∧
      (∃ segs : List (List (Station ℚ)),
        drawTrack ratLibm B_SPLINE Pnt3f.zero triangleTrack = some segs ∧ segs.length = 3 ∧
        (segs.map lineCount).sum = 3000 ∧ (segs.map tieCount).sum = 30) := by
  refine ⟨by decide, ?_, ?_⟩
  · obtain ⟨segs, h1, h2, -, h4, h5⟩ :=
      drawTrack_counts ratLibm CARDINAL Pnt3f.zero triangleTrack
    exact ⟨segs, h1, h2, h4, h5⟩
  · obtain ⟨segs, h1, h2, -, h4, h5⟩ :=
      drawTrack_counts ratLibm B_SPLINE Pnt3f.zero triangleTrack
    exact ⟨segs, h1, h2, h4, h5⟩

/-- C8, amended: `drawTrack` checks no precondition on the number of control points.
For every spline kind and every track of `N` control points, `N < 4` included, the pass
completes, samples each of the `N` windows (subscripts wrapped modulo `N`) with
`DIVIDE_LINE = 1000` stations, and draws 1000 rail blocks and 10 ties per window,
`N * 1000` rail blocks and `N * 10` ties in all; Linear mode is sampled in the same
way. -/
theorem sampling_without_precondition (m : Libm K) (kind : Int) (uninit : Pnt3f K)
    (points : List (ControlPoint K)) :
    ∃ segs : List (List (Station K)),
      drawTrack m kind uninit points = some segs ∧ segs.length = points.length ∧
      (∀ i, i < points.length → ∃ w, getWindow points i = some w ∧
        segs[i]? = some (drawSegment m kind uninit w)) ∧
      (∀ seg ∈ segs, seg.length = DIVIDE_LINE ∧ lineCount seg = DIVIDE_LINE ∧
        tieCount seg = 10) ∧
      (segs.map lineCount).sum = points.length * 1000 ∧
      (segs.map tieCount).sum = points.length * 10 := by
  obtain ⟨segs, h1, h2, h3, h4, h5⟩ := drawTrack_counts m kind uninit points
  obtain ⟨segs2, g1, -, g3⟩ := drawTrack_spec m kind uninit points
  have hs : segs2 = segs := Option.some.inj (g1.symm.trans h1)
  subst hs
  exact ⟨segs2, h1, h2, g3, h3, h4, h5⟩

/-- C9, the code at the failing input: on the first window of `squareTrack` the
Cardinal station of loop counter `0` has its position evaluated at `t = 0` but its
tangent evaluated at `t = 1/1000`, which is `(4.99, 0, 5.02997)` and not parallel to
the derivative `(5, 0, 5)` at `t = 0`; the B-spline station is left with the
default-constructed tangent, although the derivative combination at `t = 0` is
`(5, 0, 5)`. -/
theorem tangent_parameter_mismatch :
    (∃ st : Station ℚ,
      (drawSegment ratLibm CARDINAL Pnt3f.zero squareWindow)[0]? = some st ∧
      positionAt CARDINAL squareWindow 0 = some st.qt ∧
      st.tangent0 = combine squareWindow.p1 squareWindow.p2 squareWindow.p3 squareWindow.p4
        (cardinalBasisMatrix.mulVec (derivVector (1 / 1000))) ∧
      st.tangent0 = ⟨499 / 100, 0, 502997 / 100000⟩ ∧
      combine squareWindow.p1 squareWindow.p2 squareWindow.p3 squareWindow.p4
        (cardinalBasisMatrix.mulVec (derivVector 0)) = ⟨5, 0, 5⟩ ∧
      st.tangent0.cross ⟨5, 0, 5⟩ = ⟨0, 19985 / 100000, 0⟩) ∧
    (∃ st : Station ℚ,
      (drawSegment ratLibm B_SPLINE Pnt3f.zero squareWindow)[0]? = some st ∧
      positionAt B_SPLINE squareWindow 0 = some st.qt ∧
      st.tangent0 = Pnt3f.zero ∧
      combine squareWindow.p1 squareWindow.p2 squareWindow.p3 squareWindow.p4
        (bSplineBasisMatrix.mulVec (derivVector 0)) = ⟨5, 0, 5⟩) := by
  constructor
  · obtain ⟨st, hst, hq, ht⟩ := cardinal_station ratLibm Pnt3f.zero squareWindow 0 (by decide)
    have ht2 : st.tangent0 = ⟨499 / 100, 0, 502997 / 100000⟩ := by
      rw [ht]
      norm_num [combine, Mat4.mulVec, cardinalBasisMatrix, derivVector, squareWindow,
        Pnt3f.scale, Pnt3f.add]
    refine ⟨st, hst, ?_, ?_, ht2, ?_, ?_⟩
    · rw [hq]
      simp [positionAt, CARDINAL, LINEAR_TYPE]
    · rw [ht]
      norm_num
    · norm_num [combine, Mat4.mulVec, cardinalBasisMatrix, derivVector, squareWindow,
        Pnt3f.scale, Pnt3f.add]
    · rw [ht2]
      norm_num [Pnt3f.cross]
  · obtain ⟨st, hst, hq, ht⟩ := bspline_station ratLibm Pnt3f.zero squareWindow 0 (by decide)
    refine ⟨st, hst, ?_, ht, ?_⟩
    · rw [hq]
      simp [positionAt, B_SPLINE, CARDINAL, LINEAR_TYPE]
    · norm_num [combine, Mat4.mulVec, bSplineBasisMatrix, derivVector, squareWindow,
        Pnt3f.scale, Pnt3f.add]

/-- C10: in Cardinal mode, for every track and every segment `i`, the station of loop
counter `0` has its position evaluated at the parameter `t = 0` of before the
increment, so `qt` equals the initial position `qt0 = p2`; the delta `AC = qt - qt0`
is the zero vector, the vector normalized for `cross_t` is the zero vector, the
quotient `cos_y` has numerator `0` and, `sqrt(0)` being `0`, denominator `0`; and this
station draws a tie. -/
theorem cardinal_first_step_degenerate (m : Libm K) (uninit : Pnt3f K)
    (points : List (ControlPoint K)) (i : Nat) (hi : i < points.length) :
    ∃ (segs : List (List (Station K))) (w : Window K) (st : Station K),
      drawTrack m CARDINAL uninit points = some segs ∧ getWindow points i = some w ∧
      segs[i]? = some (drawSegment m CARDINAL uninit w) ∧
      (drawSegment m CARDINAL uninit w)[0]? = some st ∧
      positionAt CARDINAL w 0 = some st.qt ∧ st.qt = w.p2 ∧ st.qt0 = w.p2 ∧
      (⟨st.qt.x - st.qt0.x, st.qt.y - st.qt0.y, st.qt.z - st.qt0.z⟩ : Pnt3f K) =
        Pnt3f.zero ∧
      (st.qt.sub st.qt0).cross st.orient_t = Pnt3f.zero ∧
      st.cross_t = (Pnt3f.normalize m Pnt3f.zero).scale (5 / 2) ∧
      st.angle_y = angleY m Pnt3f.zero ∧
      cosNum (Pnt3f.zero : Pnt3f K) ⟨1, 0, 0⟩ = 0 ∧
      (m.sqrt 0 = 0 → cosDen m (Pnt3f.zero : Pnt3f K) ⟨1, 0, 0⟩ = 0 ∧
        m.sqrt (Pnt3f.normSq (Pnt3f.zero : Pnt3f K)) = 0) ∧
      0 % 100 = 0 ∧ st.tie = true ∧ GLCmd.tie st.qt st.angle_y st.angle ∈ st.emit := by
  obtain ⟨segs, h1, -, h3⟩ := drawTrack_spec m CARDINAL uninit points
  obtain ⟨w, hw, hseg⟩ := h3 i hi
  have hqt : (stepBody m CARDINAL uninit w 0 (initialState CARDINAL uninit w)).2.qt = w.p2 := by
    simp only [stepBody, switchBody_cardinal, initialState]
    ext <;>
      norm_num [combine, Mat4.mulVec, cardinalBasisMatrix, paramVector, Pnt3f.scale, Pnt3f.add]
  have hqt0 : (stepBody m CARDINAL uninit w 0 (initialState CARDINAL uninit w)).2.qt0 = w.p2 := by
    simp [stepBody, initialState, initialQt, CARDINAL, LINEAR_TYPE]
  have hAC : (⟨w.p2.x - w.p2.x, w.p2.y - w.p2.y, w.p2.z - w.p2.z⟩ : Pnt3f K) = Pnt3f.zero := by
    simp [Pnt3f.zero]
  have hsub : w.p2.sub w.p2 = Pnt3f.zero := by
    simp [Pnt3f.sub, Pnt3f.zero]
  have hcross : ∀ o : Pnt3f K, (Pnt3f.zero : Pnt3f K).cross o = Pnt3f.zero := by
    intro o
    simp [Pnt3f.cross, Pnt3f.zero]
  have htie : (stepBody m CARDINAL uninit w 0 (initialState CARDINAL uninit w)).2.tie = true := by
    simp [stepBody]
  refine ⟨segs, w, _, h1, hw, hseg, drawSegment_first m CARDINAL uninit w, ?_, hqt, hqt0,
    ?_, ?_, ?_, ?_, ?_, ?_, rfl, htie, ?_⟩
  · rw [hqt]
    simp only [positionAt, CARDINAL, LINEAR_TYPE]
    norm_num [combine, Mat4.mulVec, cardinalBasisMatrix, paramVector, Pnt3f.scale, Pnt3f.add]
  · rw [hqt, hqt0, hAC]
  · rw [hqt, hqt0, hsub, hcross]
  · have hc : (stepBody m CARDINAL uninit w 0 (initialState CARDINAL uninit w)).2.cross_t =
        crossOffset m
          (stepBody m CARDINAL uninit w 0 (initialState CARDINAL uninit w)).2.qt0
          (stepBody m CARDINAL uninit w 0 (initialState CARDINAL uninit w)).2.qt
          (stepBody m CARDINAL uninit w 0 (initialState CARDINAL uninit w)).2.orient_t := rfl
    rw [hc, hqt, hqt0, crossOffset, hsub, hcross]
  · have ha : (stepBody m CARDINAL uninit w 0 (initialState CARDINAL uninit w)).2.angle_y =
        angleY m
          ⟨(stepBody m CARDINAL uninit w 0 (initialState CARDINAL uninit w)).2.qt.x -
              (stepBody m CARDINAL uninit w 0 (initialState CARDINAL uninit w)).2.qt0.x,
            (stepBody m CARDINAL uninit w 0 (initialState CARDINAL uninit w)).2.qt.y -
              (stepBody m CARDINAL uninit w 0 (initialState CARDINAL uninit w)).2.qt0.y,
            (stepBody m CARDINAL uninit w 0 (initialState CARDINAL uninit w)).2.qt.z -
              (stepBody m CARDINAL uninit w 0 (initialState CARDINAL uninit w)).2.qt0.z⟩ := rfl
    rw [ha, hqt, hqt0, hAC]
  · simp [cosNum, Pnt3f.zero]
  · intro h0
    constructor
    · simp [cosDen, Pnt3f.zero, h0]
    · simp [Pnt3f.normSq, Pnt3f.zero, h0]
  · simp [Station.emit, htie]

/-- Witness of C10: segment `0` of `squareTrack`; its first Cardinal station sits at
`p2 = (10, 0, 0)` with zero delta and draws a tie. -/
theorem cardinal_first_step_degenerate_witness :
    0 < squareTrack.length ∧
      ∃ st : Station ℚ,
        (drawSegment ratLibm CARDINAL Pnt3f.zero squareWindow)[0]? = some st ∧
        st.qt = ⟨10, 0, 0⟩ ∧ st.qt0 = ⟨10, 0, 0⟩ ∧ st.tie = true ∧
        cosNum (Pnt3f.zero : Pnt3f ℚ) ⟨1, 0, 0⟩ = 0 ∧
        cosDen ratLibm (Pnt3f.zero : Pnt3f ℚ) ⟨1, 0, 0⟩ = 0 := by
  refine ⟨by decide, ?_⟩
  obtain ⟨segs, w, st, -, hw, -, hst, -, hq, hq0, -, -, -, -, hnum, hden, -, ht, -⟩ :=
    cardinal_first_step_degenerate ratLibm Pnt3f.zero squareTrack 0 (by decide)
  have hw2 : w = squareWindow := by
    have h : getWindow squareTrack 0 = some squareWindow := by
      simp [getWindow, windowIndices, squareTrack, squareWindow]
    exact Option.some.inj (hw.symm.trans h)
  subst hw2
  exact ⟨st, hst, by rw [hq]; rfl, by rw [hq0]; rfl, ht, hnum,
    (hden (by simp [ratLibm])).1⟩

/-- C11: in B-spline mode, for every window `(p1, p2, p3, p4)`, the initial position
`qt0` uses the weights `1/6, 4/6, 1/6` while the step of loop counter `0` evaluates
`t = 0` with the matrix constants `0.1667, 0.6667, 0.1667`, so the first delta
`AC = qt - qt0` is `(p1 + p2 + p3) / 30000`, the vector `angle_y` is computed from.  It
is zero exactly when `p1 + p2 + p3 = 0`, and it does not depend on the direction of the
curve: windows with the same sum `p1 + p2 + p3` have the same delta, in particular the
window traversed in the opposite order `(p3, p2, p1)`. -/
theorem bspline_segment_start_mismatch (m : Libm K) (uninit : Pnt3f K) (w : Window K) :
    ∃ st : Station K, (drawSegment m B_SPLINE uninit w)[0]? = some st ∧
      st.qt0 = ((w.p1.scale (1 / 6)).add (w.p2.scale (4 / 6))).add (w.p3.scale (1 / 6)) ∧
      st.qt = ((w.p1.scale (1667 / 10000)).add (w.p2.scale (6667 / 10000))).add
        (w.p3.scale (1667 / 10000)) ∧
      positionAt B_SPLINE w 0 = some st.qt ∧
      (⟨st.qt.x - st.qt0.x, st.qt.y - st.qt0.y, st.qt.z - st.qt0.z⟩ : Pnt3f K) =
        ⟨(w.p1.x + w.p2.x + w.p3.x) / 30000, (w.p1.y + w.p2.y + w.p3.y) / 30000,
          (w.p1.z + w.p2.z + w.p3.z) / 30000⟩ ∧
      st.angle_y = angleY m (((w.p1.add w.p2).add w.p3).scale (1 / 30000)) ∧
      ((⟨st.qt.x - st.qt0.x, st.qt.y - st.qt0.y, st.qt.z - st.qt0.z⟩ : Pnt3f K) =
          Pnt3f.zero ↔ (w.p1.add w.p2).add w.p3 = Pnt3f.zero) ∧
      (∀ w2 : Window K, (w2.p1.add w2.p2).add w2.p3 = (w.p1.add w.p2).add w.p3 →
        ∃ st2 : Station K, (drawSegment m B_SPLINE uninit w2)[0]? = some st2 ∧
          (⟨st2.qt.x - st2.qt0.x, st2.qt.y - st2.qt0.y, st2.qt.z - st2.qt0.z⟩ : Pnt3f K) =
            ⟨st.qt.x - st.qt0.x, st.qt.y - st.qt0.y, st.qt.z - st.qt0.z⟩) ∧
      (∃ st3 : Station K,
        (drawSegment m B_SPLINE uninit
          ⟨w.p3, w.p2, w.p1, w.p4, w.o3, w.o2, w.o1, w.o4⟩)[0]? = some st3 ∧
        (⟨st3.qt.x - st3.qt0.x, st3.qt.y - st3.qt0.y, st3.qt.z - st3.qt0.z⟩ : Pnt3f K) =
          ⟨st.qt.x - st.qt0.x, st.qt.y - st.qt0.y, st.qt.z - st.qt0.z⟩) := by
  obtain ⟨st, hst, hq0, hq, hAC, ha⟩ := bspline_first_delta m uninit w
  have hsame : ∀ w2 : Window K, (w2.p1.add w2.p2).add w2.p3 = (w.p1.add w.p2).add w.p3 →
      ∃ st2 : Station K, (drawSegment m B_SPLINE uninit w2)[0]? = some st2 ∧
        (⟨st2.qt.x - st2.qt0.x, st2.qt.y - st2.qt0.y, st2.qt.z - st2.qt0.z⟩ : Pnt3f K) =
          ⟨st.qt.x - st.qt0.x, st.qt.y - st.qt0.y, st.qt.z - st.qt0.z⟩ := by
    intro w2 hsum
    obtain ⟨st2, hst2, -, -, hAC2, -⟩ := bspline_first_delta m uninit w2
    exact ⟨st2, hst2, by rw [hAC2, hAC, hsum]⟩
  refine ⟨st, hst, hq0, hq, ?_, ?_, ha, ?_, hsame, ?_⟩
  · rw [hq]
    simp only [positionAt, B_SPLINE, CARDINAL, LINEAR_TYPE]
    norm_num [combine, Mat4.mulVec, bSplineBasisMatrix, paramVector, Pnt3f.scale, Pnt3f.add]
  · rw [hAC]
    simp only [Pnt3f.scale, Pnt3f.add]
    ext <;> simp only <;> ring
  · rw [hAC]
    exact scale_eq_zero_iff _ _ (by norm_num)
  · apply hsame
    simp only [Pnt3f.add]
    ext <;> simp only <;> ring

end Claims

end RollerCoasters
